import Mathlib

/-!
# SWISH job control: a shallow embedding and its checked properties

The shell keeps its jobs in a singly linked list (`job_list.c`), drives them
with `fg`, `bg`, `wait-for` and `wait-all` (`swish_funcs.c`) and launches
programs from the read loop of `main` (`swish.c`).

Conventions of the embedding:

* a chain of `job_t` nodes reached from `head` through `next` is a `List job_t`;
  the `length` field is kept beside it, as in the C struct, with `unsigned`
  arithmetic modulo `2 ^ 32`;
* a C `char` is a `Char`, a `char[]` buffer is a `List Char`, and the string a
  buffer holds is what precedes its first NUL;
* a NULL dereference or a read past a buffer is `none`;
* results of system calls (`fork`, `waitpid`, `kill`, `tcsetpgrp`, `malloc`)
  are supplied by explicit environment records, and the `fork`, `tcsetpgrp`,
  `kill` and `waitpid` calls of the shell process are recorded in a trace.
-/

namespace Swish

/-! ## job_list.h -/

/-- Macro `JOB_STOPPED` of job_list.h. -/
def JOB_STOPPED : Int := 0

/-- Macro `JOB_BACKGROUND` of job_list.h. -/
def JOB_BACKGROUND : Int := 1

/-- Macro `NAME_LEN` of job_list.h. -/
def NAME_LEN : Nat := 32

/-- Number of values of a C `unsigned` (32 bits). -/
def UINT_RANGE : Nat := 2 ^ 32

/-- Largest value of a C `int` plus one (32 bits). -/
def INT_RANGE : Nat := 2 ^ 31

/-- The NUL character that terminates a C string. -/
def NUL : Char := Char.ofNat 0

/-- The string held in a `char` buffer: the characters before the first NUL. -/
def cstring (buf : List Char) : List Char :=
  buf.takeWhile (fun c => c ≠ NUL)

/-- The libc call `strncpy(dst, src, n)`: the resulting content of `dst[0..n)`.
At most `n` characters of the string at `src` are copied; when the string is
shorter than `n` the rest of `dst` is filled with NUL, and when it is not, no
NUL is written. -/
def strncpy (src : List Char) (n : Nat) : List Char :=
  (cstring src).take n ++ List.replicate (n - (cstring src).length) NUL

/-- The struct `job_t` without its `next` link: `name` is the whole
`char name[NAME_LEN]` buffer. -/
structure job_t where
  name : List Char
  status : Int
  pid : Int
deriving DecidableEq

/-- The struct `job_list_t`: `head` is the chain of nodes reached from the
`head` pointer, `length` the `unsigned length` field. -/
structure job_list_t where
  head : List job_t
  length : Nat
deriving DecidableEq

/-- The `length++` of an `unsigned`. -/
def inc_unsigned (n : Nat) : Nat := (n + 1) % UINT_RANGE

/-- The `length--` of an `unsigned`. -/
def dec_unsigned (n : Nat) : Nat := (n + UINT_RANGE - 1) % UINT_RANGE

/-- Conversion of an `int` argument to an `unsigned` parameter. -/
def to_unsigned (v : Int) : Nat := (v % (UINT_RANGE : Int)).toNat

/-! ## job_list.c -/

/-- Function `job_list_init`. -/
def job_list_init : job_list_t := ⟨[], 0⟩

/-- Function `job_list_free`. -/
def job_list_free (_list : job_list_t) : job_list_t := ⟨[], 0⟩

/-- Lines 36-46 of `job_list_add`: walk to the node whose `next` is NULL and
hang the new node there. -/
def job_list_add.link (node : job_t) : List job_t → List job_t
  | [] => [node]
  | [last] => [last, node]
  | current :: nxt :: rest => current :: job_list_add.link node (nxt :: rest)

/-- Function `job_list_add`. `malloc_ok` says whether the `malloc` succeeds.
Returns the return value and the list afterwards. -/
def job_list_add (list : job_list_t) (pid : Int) (name : String) (status : Int)
    (malloc_ok : Bool) : Int × job_list_t :=
  match list.head with
  | [] =>
    if malloc_ok then
      (0, ⟨[⟨strncpy name.toList NAME_LEN, status, pid⟩], 1⟩)
    else (-1, ⟨[], list.length⟩)
  | first :: rest =>
    if malloc_ok then
      (0, ⟨job_list_add.link ⟨strncpy name.toList NAME_LEN, status, pid⟩ (first :: rest),
           inc_unsigned list.length⟩)
    else (-1, list)

/-- The loop of `job_list_get`: `idx` steps along the chain, stopping at NULL. -/
def job_list_get.walk : Nat → List job_t → Option job_t
  | 0, current => current.head?
  | _ + 1, [] => none
  | k + 1, _ :: nxt => job_list_get.walk k nxt

/-- Function `job_list_get`: the node at `idx` (`none` is NULL). -/
def job_list_get (list : job_list_t) (idx : Nat) : Option job_t :=
  if idx ≥ list.length then none else job_list_get.walk idx list.head

/-- Lines 79-85 of `job_list_remove`: `k` steps from `current`, then
`current->next = current->next->next`. `none` is a NULL dereference. -/
def job_list_remove.unlink : Nat → List job_t → Option (List job_t)
  | 0, current :: _ :: rest => some (current :: rest)
  | k + 1, current :: rest => (job_list_remove.unlink k rest).map (fun r => current :: r)
  | _, _ => none

/-- Function `job_list_remove`: the return value and the list afterwards;
`none` is a NULL dereference. -/
def job_list_remove (list : job_list_t) (idx : Nat) : Option (Int × job_list_t) :=
  if idx ≥ list.length then some (-1, list)
  else if idx = 0 then
    match list.head with
    | [] => none
    | _ :: rest => some (0, ⟨rest, dec_unsigned list.length⟩)
  else
    (job_list_remove.unlink (idx - 1) list.head).map
      (fun h => (0, ⟨h, dec_unsigned list.length⟩))

/-- Lines 91-96 of `job_list_remove_by_status`: pop matching nodes off the head. -/
def job_list_remove_by_status.pop (status : Int) : List job_t → Nat → List job_t × Nat
  | [], len => ([], len)
  | first :: rest, len =>
    if first.status = status then job_list_remove_by_status.pop status rest (dec_unsigned len)
    else (first :: rest, len)

/-- Lines 100-109 of `job_list_remove_by_status`: the chain after `current`,
with every matching node unlinked. -/
def job_list_remove_by_status.sweep (status : Int) : List job_t → Nat → List job_t × Nat
  | [], len => ([], len)
  | nxt :: rest, len =>
    if nxt.status = status then job_list_remove_by_status.sweep status rest (dec_unsigned len)
    else
      let r := job_list_remove_by_status.sweep status rest len
      (nxt :: r.1, r.2)

/-- Function `job_list_remove_by_status`. -/
def job_list_remove_by_status (list : job_list_t) (status : Int) : job_list_t :=
  let p := job_list_remove_by_status.pop status list.head list.length
  match p.1 with
  | [] => ⟨[], p.2⟩
  | current :: rest =>
    let r := job_list_remove_by_status.sweep status rest p.2
    ⟨current :: r.1, r.2⟩

/-- Representation invariant of a job table: the `length` field counts the
nodes of the chain, and the count is in the range that the `unsigned` field and
the `int` loop counters share. -/
def job_list_t.WF (list : job_list_t) : Prop :=
  list.length = list.head.length ∧ list.head.length < INT_RANGE

/-- A run of `job_list_add` calls, each with its `malloc` succeeding; an entry
of `adds` is the `(pid, name, status)` of one call. -/
def add_all (list : job_list_t) : List (Int × String × Int) → job_list_t
  | [] => list
  | a :: rest => add_all (job_list_add list a.1 a.2.1 a.2.2 true).2 rest

/-! ## swish.c: the `jobs` built-in -/

/-- One line written by the `jobs` built-in: `"%d: %s (%s)\n"`. -/
structure JobLine where
  ordinal : Int
  name : List Char
  status_desc : String
deriving DecidableEq

/-- What `%s` prints for a `name` field: the string in it, or `none` when the
field has no NUL and the read runs past it. -/
def print_name (name : List Char) : Option (List Char) :=
  if NUL ∈ name then some (cstring name) else none

/-- Lines 120-124 of swish.c. -/
def status_desc (status : Int) : String :=
  if status = JOB_BACKGROUND then "background" else "stopped"

/-- Lines 116-128 of swish.c: the loop over the chain, `i` being the ordinal
of `current`. The counter is an `int`; it is not reduced here, the tables
considered having fewer than `INT_RANGE` nodes. -/
def jobs_builtin.loop : Int → List job_t → Option (List JobLine)
  | _, [] => some []
  | i, current :: rest =>
    match print_name current.name, jobs_builtin.loop (i + 1) rest with
    | some nm, some lines => some (⟨i, nm, status_desc current.status⟩ :: lines)
    | _, _ => none

/-- The `jobs` built-in of `main`: the lines printed. -/
def jobs_builtin (jobs : job_list_t) : Option (List JobLine) :=
  jobs_builtin.loop 0 jobs.head

/-- The node a `job_list_add` call creates from its `(pid, name, status)`. -/
def added_job (a : Int × String × Int) : job_t :=
  ⟨strncpy a.2.1.toList NAME_LEN, a.2.2, a.1⟩


/-! ## string_vector.h

The bodies of the string vector functions (string_vector.c) are not among the
sources; a vector is taken to be the list of its strings and each function is
modelled from the contract stated in the header. -/

/-- The struct `strvec_t`: the strings held, in order. -/
abbrev strvec_t := List String

/-- Modelled from the spec: `strvec_get` (string_vector.c is absent), from the
header contract "Returns the vector element on success, or NULL on error".
`none` is NULL. -/
def strvec_get (vec : strvec_t) (i : Nat) : Option String := vec[i]?

/-- Modelled from the spec: `strvec_find` (string_vector.c is absent), from the
header contract "Returns the index of the string within the vector if found,
-1 if not found"; the index is that of the first occurrence. -/
def strvec_find (vec : strvec_t) (s : String) : Int :=
  if s ∈ vec then (vec.indexOf s : Int) else -1

/-- Modelled from the spec: `strvec_take` (string_vector.c is absent), from the
header contract "Modify a string vector so that it only contains its first n
elements". -/
def strvec_take (vec : strvec_t) (n : Nat) : strvec_t := vec.take n

/-! ## libc and the operating system -/

/-- The libc predicate `isspace` in the C locale. -/
def isspace (c : Char) : Bool :=
  c = ' ' || (9 ≤ c.toNat && c.toNat ≤ 13)

/-- The digit loop of `atoi`: accumulate decimal digits, stop at the first
character that is not one. -/
def atoi.digits : Int → List Char → Int
  | acc, [] => acc
  | acc, c :: rest =>
    if 48 ≤ c.toNat ∧ c.toNat ≤ 57 then atoi.digits (acc * 10 + ((c.toNat : Int) - 48)) rest
    else acc

/-- The libc call `atoi`: skip white space, read an optional sign, then
decimal digits. The mathematical value is returned; it is the value the C
call returns only when it fits an `int`, that is when it is at least
`-INT_RANGE` and below `INT_RANGE`. The general statements below about a
token that goes through `atoi` carry that bound, and the concrete tokens used
are within it. -/
def atoi (s : String) : Int :=
  match (cstring s.toList).dropWhile isspace with
  | [] => 0
  | c :: rest =>
    if c = '-' then - atoi.digits 0 rest
    else if c = '+' then atoi.digits 0 rest
    else atoi.digits 0 (c :: rest)

/-- What `waitpid(pid, &wstatus, WUNTRACED)` reports: `failed` is the return
value -1, `stopped` is `WIFSTOPPED(wstatus)`, `terminated` is any other status
change (the process exited or was killed). -/
inductive WaitResult
  | failed
  | stopped
  | terminated
deriving DecidableEq

/-- A system call made by the shell process, with its outcome. `fork` records
the token vector the child is handed to `run_command` with. -/
inductive Event
  | fork (tokens : strvec_t) (ret : Int)
  | tcsetpgrp (pgid : Int) (ok : Bool)
  | kill_cont (pid : Int) (ok : Bool)
  | waitpid (pid : Int) (r : WaitResult)
deriving DecidableEq

/-- Outcomes of the system calls of the shell process: `getpid` is the pid of
the shell, `waitpid pid` what a wait on `pid` reports, `kill pid` whether
`kill(pid, SIGCONT)` returns 0, `tcsetpgrp pgid` whether
`tcsetpgrp(STDIN_FILENO, pgid)` returns 0. -/
structure OS where
  getpid : Int
  waitpid : Int → WaitResult
  kill : Int → Bool
  tcsetpgrp : Int → Bool

/-- State of the shell process: the job table, the foreground process group of
the controlling terminal, and the system calls made so far. -/
structure Shell where
  jobs : job_list_t
  tty : Int
  trace : List Event
deriving DecidableEq

/-- A call `tcsetpgrp(STDIN_FILENO, pgid)`: on success the terminal belongs to
`pgid`. Returns whether the call succeeded. -/
def Shell.tcsetpgrp (os : OS) (sh : Shell) (pgid : Int) : Bool × Shell :=
  (os.tcsetpgrp pgid,
   { sh with tty := if os.tcsetpgrp pgid then pgid else sh.tty,
             trace := sh.trace ++ [Event.tcsetpgrp pgid (os.tcsetpgrp pgid)] })

/-- A call `kill(pid, SIGCONT)`. Returns whether the call succeeded. -/
def Shell.kill (os : OS) (sh : Shell) (pid : Int) : Bool × Shell :=
  (os.kill pid, { sh with trace := sh.trace ++ [Event.kill_cont pid (os.kill pid)] })

/-- A call `waitpid(pid, &wstatus, WUNTRACED)`. -/
def Shell.waitpid (os : OS) (sh : Shell) (pid : Int) : WaitResult × Shell :=
  (os.waitpid pid, { sh with trace := sh.trace ++ [Event.waitpid pid (os.waitpid pid)] })

/-- The pids waited on in a trace, in call order. -/
def waited : List Event → List Int
  | [] => []
  | Event.waitpid pid _ :: rest => pid :: waited rest
  | _ :: rest => waited rest

/-! ## swish_funcs.c -/

/-- Macro `MAX_ARGS` of swish_funcs.c. -/
def MAX_ARGS : Nat := 10

/-- Function `await_background_job`: the return value and the state
afterwards; `none` is a NULL dereference (`atoi` of an absent token, or inside
`job_list_remove`). -/
def await_background_job (os : OS) (tokens : strvec_t) (sh : Shell) : Option (Int × Shell) :=
  match strvec_get tokens 1 with
  | none => none
  | some c =>
    let job_index := atoi c
    match job_list_get sh.jobs (to_unsigned job_index) with
    | none => some (-1, sh)
    | some job_to_resume =>
      if job_to_resume.status ≠ JOB_BACKGROUND then some (-1, sh)
      else
        let w := sh.waitpid os job_to_resume.pid
        match w.1 with
        | WaitResult.failed => some (-1, w.2)
        | WaitResult.stopped => some (0, w.2)
        | WaitResult.terminated =>
          match job_list_remove w.2.jobs (to_unsigned job_index) with
          | none => none
          | some r =>
            if r.1 ≠ 0 then some (-1, { w.2 with jobs := r.2 })
            else some (0, { w.2 with jobs := r.2 })

/-- The `for` loop of `await_all_background_jobs` (lines 285-300): `i` is the
loop counter, the list is the chain at `temp`. Returns whether a `waitpid`
failed (the `return -1` of line 292), the chain at `temp` with the statuses
written, and the trace; `none` is a NULL dereference of `temp`. -/
def await_all_background_jobs.loop (os : OS) (length : Nat) :
    Nat → List job_t → List Event → Option (Bool × List job_t × List Event)
  | i, [], tr => if i < length then none else some (false, [], tr)
  | i, temp :: rest, tr =>
    if i < length then
      if temp.status = JOB_STOPPED then
        (await_all_background_jobs.loop os length (i + 1) rest tr).map
          (fun r => (r.1, temp :: r.2.1, r.2.2))
      else
        match os.waitpid temp.pid with
        | WaitResult.failed =>
          some (true, temp :: rest, tr ++ [Event.waitpid temp.pid WaitResult.failed])
        | WaitResult.stopped =>
          (await_all_background_jobs.loop os length (i + 1) rest
              (tr ++ [Event.waitpid temp.pid WaitResult.stopped])).map
            (fun r => (r.1, { temp with status := JOB_STOPPED } :: r.2.1, r.2.2))
        | WaitResult.terminated =>
          (await_all_background_jobs.loop os length (i + 1) rest
              (tr ++ [Event.waitpid temp.pid WaitResult.terminated])).map
            (fun r => (r.1, temp :: r.2.1, r.2.2))
    else some (false, temp :: rest, tr)

/-- Function `await_all_background_jobs`: the loop starts its counter at 1 and
`temp` at the head, then `job_list_remove_by_status(jobs, JOB_BACKGROUND)`. -/
def await_all_background_jobs (os : OS) (sh : Shell) : Option (Int × Shell) :=
  match await_all_background_jobs.loop os sh.jobs.length 1 sh.jobs.head sh.trace with
  | none => none
  | some r =>
    if r.1 then some (-1, { sh with jobs := ⟨r.2.1, sh.jobs.length⟩, trace := r.2.2 })
    else
      some (0, { sh with
        jobs := job_list_remove_by_status ⟨r.2.1, sh.jobs.length⟩ JOB_BACKGROUND,
        trace := r.2.2 })

/-- Outcomes of the system calls a forked child makes in `run_command`:
`sig_ok` for `sigfillset` and the two `sigaction` calls, `setpgid_ok` for
`setpgid`, `open_rd file` for `open(file, O_RDONLY, ...)`, `open_wr file` for
the `open` of an output file, `dup2_ok fd` for `dup2(_, fd)`, `exec_ok` for
`execvp`. -/
structure ChildOS where
  sig_ok : Bool
  setpgid_ok : Bool
  open_rd : String → Bool
  open_wr : String → Bool
  dup2_ok : Nat → Bool
  exec_ok : Bool

/-- The call `execvp(strarr[0], strarr)` that ends `run_command`: `argv` are
the entries of `strarr` written by the copy loop, `sentinel` the index at which
the NULL was written, `stdin` the file standard input was redirected to,
`stdout` the file standard output was redirected to and whether it was opened
with `O_APPEND`. -/
structure ExecCall where
  argv : List String
  sentinel : Nat
  stdin : Option String
  stdout : Option (String × Bool)
deriving DecidableEq

/-- How `run_command` ends: it returns `code` before reaching `execvp`, or it
calls `execvp`; `replaced` says whether the call succeeded (the process is now
the program) or failed (`run_command` returns -1). -/
inductive RunResult
  | ret (code : Int)
  | execvp (call : ExecCall) (replaced : Bool)
deriving DecidableEq

/-- Lines 73-95 of `run_command`: the `<` redirection. Returns `endProgram`
and the input file, or `none` on a `return -1`. -/
def run_command.redirect_in (env : ChildOS) (tokens : strvec_t) :
    Option (Int × Option String) :=
  let index := strvec_find tokens "<"
  if index ≠ -1 then
    match strvec_get tokens (to_unsigned (index + 1)) with
    | none => none
    | some read_file =>
      if !env.open_rd read_file then none
      else if !env.dup2_ok 0 then none
      else some (index, some read_file)
  else some (0, none)

/-- Lines 96-143 of `run_command`: the `>` redirection, else the `>>`
redirection. Takes the `endProgram` left by the `<` stage; returns
`endProgram` and the output file with its append flag, or `none` on a
`return -1`. -/
def run_command.redirect_out (env : ChildOS) (tokens : strvec_t) (endProgram : Int) :
    Option (Int × Option (String × Bool)) :=
  let index := strvec_find tokens ">"
  if index ≠ -1 then
    let endProgram := if endProgram = 0 then index else endProgram
    match strvec_get tokens (to_unsigned (index + 1)) with
    | none => none
    | some write_file =>
      if !env.open_wr write_file then none
      else if !env.dup2_ok 1 then none
      else some (endProgram, some (write_file, false))
  else
    let index := strvec_find tokens ">>"
    if index ≠ -1 then
      let endProgram := if endProgram = 0 then index else endProgram
      match strvec_get tokens (to_unsigned (index + 1)) with
      | none => none
      | some write_file =>
        if !env.open_wr write_file then none
        else if !env.dup2_ok 1 then none
        else some (endProgram, some (write_file, true))
    else some (endProgram, none)

/-- Lines 152-157 of `run_command`: the copy loop into `strarr`, `i` being
the counter and the list the tokens from index `i` on. Returns the entries
written from index `i` on and the final value of `i`. -/
def run_command.fill : Nat → List String → List String × Nat
  | i, [] => ([], i)
  | i, temp :: rest =>
    if i < MAX_ARGS + 1 then
      let r := run_command.fill (i + 1) rest
      (temp :: r.1, r.2)
    else ([], i)

/-- Function `run_command`, called in a forked child. -/
def run_command (env : ChildOS) (tokens : strvec_t) : RunResult :=
  if !env.sig_ok then RunResult.ret 1
  else if !env.setpgid_ok then RunResult.ret 1
  else
    match run_command.redirect_in env tokens with
    | none => RunResult.ret (-1)
    | some rin =>
      match run_command.redirect_out env tokens rin.1 with
      | none => RunResult.ret (-1)
      | some rout =>
        let tokens := if rout.1 ≠ 0 then strvec_take tokens (to_unsigned rout.1) else tokens
        let filled := run_command.fill 0 tokens
        RunResult.execvp ⟨filled.1, filled.2, rin.2, rout.2⟩ env.exec_ok

/-! ## swish.c: the launch path of `main` -/

/-- Outcomes of the calls of the launch path (lines 159-254 of swish.c) that
the `OS` record does not cover: the return values of the `fork` of the
background block (line 171) and of the `fork` of line 197, and whether the
`malloc` inside the `job_list_add` of line 184 and of line 241 succeeds. -/
structure LaunchCalls where
  fork_bg : Int
  malloc_bg : Bool
  fork_fg : Int
  malloc_fg : Bool

/-- Where the process is after the launch path: back at the prompt of the read
loop, or, in a forked child, at the end of `run_command`. -/
inductive Control
  | prompt
  | child (r : RunResult)
deriving DecidableEq

/-- Lines 197-254 of swish.c: fork, hand the terminal to the child, wait for
it, record it if it stopped, take the terminal back. -/
def launch_foreground (os : OS) (calls : LaunchCalls) (env : ChildOS)
    (first_token : String) (tokens : strvec_t) (sh : Shell) : Control × Shell :=
  let child_pid := calls.fork_fg
  let sh := { sh with trace := sh.trace ++ [Event.fork tokens child_pid] }
  if child_pid = -1 then (Control.prompt, { sh with jobs := job_list_free sh.jobs })
  else if child_pid = 0 then (Control.child (run_command env tokens), sh)
  else
    let t := sh.tcsetpgrp os child_pid
    if !t.1 then (Control.prompt, t.2)
    else
      let w := t.2.waitpid os child_pid
      match w.1 with
      | WaitResult.failed => (Control.prompt, w.2)
      | WaitResult.stopped =>
        let a := job_list_add w.2.jobs child_pid first_token JOB_STOPPED calls.malloc_fg
        if a.1 ≠ 0 then (Control.prompt, { w.2 with jobs := a.2 })
        else (Control.prompt, (Shell.tcsetpgrp os { w.2 with jobs := a.2 } os.getpid).2)
      | WaitResult.terminated => (Control.prompt, (w.2.tcsetpgrp os os.getpid).2)

/-- Lines 159-254 of swish.c, the branch of `main` for a first token that is
not a built-in; `first_token` is the token at index 0. When the last token is
`&` the background block (lines 169-190) runs first and, unless it ends the
iteration, control goes on to line 197. `none` is the NULL handed to `strcmp`
when there is no last token. -/
def launch (os : OS) (calls : LaunchCalls) (env : ChildOS)
    (first_token : String) (tokens : strvec_t) (sh : Shell) : Option (Control × Shell) :=
  match strvec_get tokens (tokens.length - 1) with
  | none => none
  | some last_token =>
    if last_token = "&" then
      let tokens := strvec_take tokens (tokens.length - 1)
      let child_pid := calls.fork_bg
      let sh := { sh with trace := sh.trace ++ [Event.fork tokens child_pid] }
      if child_pid = -1 then some (Control.prompt, { sh with jobs := job_list_free sh.jobs })
      else if child_pid = 0 then some (Control.child (run_command env tokens), sh)
      else
        let a := job_list_add sh.jobs child_pid first_token JOB_BACKGROUND calls.malloc_bg
        if a.1 ≠ 0 then some (Control.prompt, { sh with jobs := a.2 })
        else some (launch_foreground os calls env first_token tokens { sh with jobs := a.2 })
    else some (launch_foreground os calls env first_token tokens sh)

/-! ## swish_funcs.c: `resume_job` and `tokenize` -/

/-- The assignment `job_to_resume->status = status` through the pointer that
`job_list_get` returned for index `idx`: the node `idx` links from the head. -/
def write_status (status : Int) : Nat → List job_t → List job_t
  | _, [] => []
  | 0, job :: rest => { job with status := status } :: rest
  | k + 1, job :: rest => job :: write_status status k rest

/-- Function `resume_job`: the return value and the state afterwards; `none`
is a NULL dereference (`atoi` of an absent token, or inside
`job_list_remove`). Any `is_foreground` other than 1 takes the `else` branch. -/
def resume_job (os : OS) (tokens : strvec_t) (sh : Shell) (is_foreground : Int) :
    Option (Int × Shell) :=
  if is_foreground = 1 then
    match strvec_get tokens 1 with
    | none => none
    | some c =>
      let job_index := atoi c
      match job_list_get sh.jobs (to_unsigned job_index) with
      | none => some (-1, sh)
      | some job_to_resume =>
        let t := sh.tcsetpgrp os job_to_resume.pid
        if !t.1 then some (-1, t.2)
        else
          let k := t.2.kill os job_to_resume.pid
          if !k.1 then some (-1, k.2)
          else
            let w := k.2.waitpid os job_to_resume.pid
            match w.1 with
            | WaitResult.failed => some (-1, w.2)
            | WaitResult.stopped => some (0, w.2)
            | WaitResult.terminated =>
              match job_list_remove w.2.jobs (to_unsigned job_index) with
              | none => none
              | some r =>
                if r.1 ≠ 0 then some (-1, { w.2 with jobs := r.2 })
                else
                  let back := Shell.tcsetpgrp os { w.2 with jobs := r.2 } os.getpid
                  if !back.1 then some (-1, back.2) else some (0, back.2)
  else
    match strvec_get tokens 1 with
    | none => none
    | some c =>
      let job_index := atoi c
      match job_list_get sh.jobs (to_unsigned job_index) with
      | none => some (-1, sh)
      | some job_to_resume =>
        let k := sh.kill os job_to_resume.pid
        if !k.1 then some (-1, k.2)
        else
          let back := Shell.tcsetpgrp os
            { k.2 with jobs :=
                { k.2.jobs with
                  head := write_status JOB_BACKGROUND (to_unsigned job_index) k.2.jobs.head } }
            os.getpid
          if !back.1 then some (-1, back.2) else some (0, back.2)

/-- The tokens that successive `strtok(_, " ")` calls return: the maximal runs
of characters other than a space. `current` is the run being read. -/
def strtok_tokens : List Char → List Char → List (List Char)
  | current, [] => if current = [] then [] else [current]
  | current, c :: rest =>
    if c = ' ' then
      if current = [] then strtok_tokens [] rest else current :: strtok_tokens [] rest
    else strtok_tokens (current ++ [c]) rest

/-- Modelled from the spec: `strvec_add` (string_vector.c is absent), from the
header contract "Add a new string to a string vector"; the string goes to the
end and the call is taken to succeed (`tokenize` ignores its return value). -/
def strvec_add (vec : strvec_t) (s : String) : strvec_t := vec ++ [s]

/-- Modelled from the spec: `strvec_clear` (string_vector.c is absent), from
the header contract "Removes all entries from a string vector". -/
def strvec_clear (_vec : strvec_t) : strvec_t := []

/-- The `while` loop of `tokenize` (lines 31-34): one `strvec_add` per token. -/
def tokenize.add_all (tokens : strvec_t) : List (List Char) → strvec_t
  | [] => tokens
  | token :: rest => tokenize.add_all (strvec_add tokens (String.mk token)) rest

/-- Function `tokenize`: the return value and the vector afterwards. -/
def tokenize (s : String) (tokens : strvec_t) : Int × strvec_t :=
  match strtok_tokens [] (cstring s.toList) with
  | [] => (-1, tokens)
  | token :: rest => (0, tokenize.add_all tokens (token :: rest))

/-! ## swish.c: one iteration of the read loop -/

/-- Outcomes of the calls of the `pwd` and `cd` built-ins: whether `getcwd`
succeeds, the value of `getenv("HOME")` (`none` is NULL), and whether
`chdir(dir)` returns 0. -/
structure BuiltinOS where
  getcwd_ok : Bool
  home : Option String
  chdir : String → Bool

/-- Where the shell process is after one iteration of the `while` loop of
`main`: at the top of the loop again with the prompt printed, out of `main`
with a return value, or, in a forked child, at the end of `run_command`. -/
inductive LoopControl
  | next_prompt
  | returned (code : Int)
  | child (r : RunResult)
deriving DecidableEq

/-- Lines 39-257 of swish.c, one iteration of the read loop. `cmd` is the line
read, without its newline; `tokens` is what the token vector holds when the
line is read. Returns where the process is and the shell state; the content of
the token vector afterwards and the text printed are not modelled. `none` is a
NULL dereference or a read past a buffer. -/
def main_step (os : OS) (bos : BuiltinOS) (calls : LaunchCalls) (env : ChildOS)
    (cmd : String) (tokens : strvec_t) (sh : Shell) : Option (LoopControl × Shell) :=
  let tk := tokenize cmd tokens
  if tk.1 ≠ 0 then
    some (LoopControl.returned 1, { sh with jobs := job_list_free sh.jobs })
  else if tk.2.length = 0 then some (LoopControl.next_prompt, sh)
  else
    match strvec_get tk.2 0 with
    | none => none
    | some first_token =>
      if first_token = "pwd" then
        if !bos.getcwd_ok then
          some (LoopControl.next_prompt, { sh with jobs := job_list_free sh.jobs })
        else some (LoopControl.next_prompt, sh)
      else if first_token = "cd" then
        match strvec_get tk.2 1 with
        | none =>
          match bos.home with
          | none => some (LoopControl.next_prompt, { sh with jobs := job_list_free sh.jobs })
          | some temp =>
            if !bos.chdir temp then
              some (LoopControl.next_prompt, { sh with jobs := job_list_free sh.jobs })
            else some (LoopControl.next_prompt, sh)
        | some second_token =>
          if !bos.chdir second_token then
            some (LoopControl.next_prompt, { sh with jobs := job_list_free sh.jobs })
          else some (LoopControl.next_prompt, sh)
      else if first_token = "exit" then
        some (LoopControl.returned 0, { sh with jobs := job_list_free sh.jobs })
      else if first_token = "jobs" then
        (jobs_builtin sh.jobs).map (fun _ => (LoopControl.next_prompt, sh))
      else if first_token = "fg" then
        (resume_job os tk.2 sh 1).map (fun r => (LoopControl.next_prompt, r.2))
      else if first_token = "bg" then
        (resume_job os tk.2 sh 0).map (fun r => (LoopControl.next_prompt, r.2))
      else if first_token = "wait-for" then
        (await_background_job os tk.2 sh).map (fun r => (LoopControl.next_prompt, r.2))
      else if first_token = "wait-all" then
        (await_all_background_jobs os sh).map (fun r => (LoopControl.next_prompt, r.2))
      else
        (launch os calls env first_token tk.2 sh).map
          (fun r =>
            match r.1 with
            | Control.prompt => (LoopControl.next_prompt, r.2)
            | Control.child c => (LoopControl.child c, r.2))

/-! ## Concrete inputs used below -/

/-- A system in which every wait reports that the process terminated and every
other call succeeds; the shell has pid 1. -/
def os_exit : OS := ⟨1, fun _ => WaitResult.terminated, fun _ => true, fun _ => true⟩

/-- A system in which every wait reports that the process stopped and every
other call succeeds; the shell has pid 1. -/
def os_stop : OS := ⟨1, fun _ => WaitResult.stopped, fun _ => true, fun _ => true⟩

/-- A system in which every `waitpid` returns -1 and every other call succeeds;
the shell has pid 1. -/
def os_wait_fail : OS := ⟨1, fun _ => WaitResult.failed, fun _ => true, fun _ => true⟩

/-- A child in which every call of `run_command` succeeds. -/
def child_ok : ChildOS := ⟨true, true, fun _ => true, fun _ => true, fun _ => true, true⟩

/-- Job `A`: pid 100, status background. -/
def job_A : job_t := ⟨strncpy "A".toList NAME_LEN, JOB_BACKGROUND, 100⟩

/-- Job `B`: pid 101, status stopped. -/
def job_B : job_t := ⟨strncpy "B".toList NAME_LEN, JOB_STOPPED, 101⟩

/-- Job `C`: pid 102, status background. -/
def job_C : job_t := ⟨strncpy "C".toList NAME_LEN, JOB_BACKGROUND, 102⟩

/-- The table `A: background, B: stopped, C: background`. -/
def table_ABC : job_list_t := ⟨[job_A, job_B, job_C], 3⟩

/-- A system for the built-ins in which `getcwd` succeeds, `HOME` is `/root`
and every `chdir` fails. -/
def builtin_chdir_fails : BuiltinOS := ⟨true, some "/root", fun _ => false⟩

/-- A name of 32 characters, as many as `NAME_LEN`. -/
def long_name : String := "abcdefghijklmnopqrstuvwxyz012345"

/-! # Properties -/

theorem link_eq_append (node : job_t) (l : List job_t) :
    job_list_add.link node l = l ++ [node] := by
  induction l with
  | nil => rfl
  | cons a t ih =>
    cases t with
    | nil => rfl
    | cons b r => simp [job_list_add.link, ih]

theorem walk_eq_getElem? (k : Nat) (l : List job_t) :
    job_list_get.walk k l = l[k]? := by
  induction k generalizing l with
  | zero => cases l <;> simp [job_list_get.walk]
  | succ n ih => cases l <;> simp [job_list_get.walk, ih]

theorem job_list_get_eq (list : job_list_t) (h : list.length = list.head.length) (idx : Nat) :
    job_list_get list idx = list.head[idx]? := by
  unfold job_list_get
  split
  · rename_i hge
    rw [h] at hge
    exact (List.getElem?_eq_none hge).symm
  · exact walk_eq_getElem? _ _

theorem job_list_add_ok (list : job_list_t) (pid : Int) (name : String) (status : Int)
    (h : list.length = list.head.length) (hlt : list.head.length + 1 < UINT_RANGE) :
    job_list_add list pid name status true
      = (0, ⟨list.head ++ [added_job (pid, name, status)], list.head.length + 1⟩) := by
  obtain ⟨hd, len⟩ := list
  simp only at h hlt
  subst h
  cases hd with
  | nil => simp [job_list_add, added_job]
  | cons a t =>
    simp only [job_list_add, link_eq_append, added_job, inc_unsigned, if_true]
    rw [Nat.mod_eq_of_lt hlt]

theorem add_all_eq (adds : List (Int × String × Int)) (list : job_list_t)
    (h : list.length = list.head.length)
    (hlt : list.head.length + adds.length < UINT_RANGE) :
    add_all list adds = ⟨list.head ++ adds.map added_job, list.head.length + adds.length⟩ := by
  induction adds generalizing list with
  | nil =>
    obtain ⟨hd, len⟩ := list
    simp only at h
    simp [add_all, h]
  | cons a rest ih =>
    have hlt1 : list.head.length + 1 < UINT_RANGE := by
      simp only [List.length_cons] at hlt; omega
    have hadd := job_list_add_ok list a.1 a.2.1 a.2.2 h hlt1
    simp only [add_all, hadd]
    rw [ih]
    · simp [Nat.add_assoc, Nat.add_comm 1]
    · simp
    · simp only [List.length_append, List.length_cons, List.length_nil] at hlt ⊢; omega

theorem cstring_idem_append (s : List Char) (k : Nat) :
    cstring (cstring s ++ List.replicate k NUL) = cstring s := by
  induction s with
  | nil => cases k <;> simp [cstring, List.replicate]
  | cons c t ih =>
    by_cases hc : c = NUL
    · subst hc
      cases k <;> simp [cstring, List.replicate]
    · simp only [cstring] at ih ⊢
      simpa [List.takeWhile_cons, hc] using ih

theorem strncpy_short (s : List Char) (n : Nat) (h : (cstring s).length < n) :
    strncpy s n = cstring s ++ List.replicate (n - (cstring s).length) NUL := by
  unfold strncpy
  rw [List.take_of_length_le (Nat.le_of_lt h)]

theorem cstring_strncpy (s : List Char) (n : Nat) (h : (cstring s).length < n) :
    cstring (strncpy s n) = cstring s := by
  rw [strncpy_short s n h, cstring_idem_append]

theorem NUL_mem_strncpy (s : List Char) (n : Nat) (h : (cstring s).length < n) :
    NUL ∈ strncpy s n := by
  rw [strncpy_short s n h]
  apply List.mem_append_right
  obtain ⟨m, hm⟩ : ∃ m, n - (cstring s).length = m + 1 := ⟨n - (cstring s).length - 1, by omega⟩
  rw [hm]
  simp [List.replicate]

theorem jobs_loop_eq (l : List job_t) (i : Int) (h : ∀ j ∈ l, NUL ∈ j.name) :
    ∃ lines, jobs_builtin.loop i l = some lines ∧ lines.length = l.length ∧
      ∀ k (hk : k < l.length), lines[k]? =
        some ⟨i + k, cstring l[k].name, status_desc l[k].status⟩ := by
  induction l generalizing i with
  | nil => exact ⟨[], rfl, rfl, fun k hk => absurd hk (by simp)⟩
  | cons a t ih =>
    obtain ⟨lines, h1, h2, h3⟩ := ih (i + 1) (fun j hj => h j (List.mem_cons_of_mem _ hj))
    have ha : NUL ∈ a.name := h a (List.mem_cons_self _ _)
    refine ⟨⟨i, cstring a.name, status_desc a.status⟩ :: lines, ?_, by simp [h2], ?_⟩
    · simp [jobs_builtin.loop, print_name, ha, h1]
    · intro k hk
      cases k with
      | zero => simp
      | succ m =>
        simp only [List.length_cons, Nat.add_lt_add_iff_right] at hk
        simp only [List.getElem?_cons_succ, List.getElem_cons_succ]
        rw [h3 m hk]
        simp only [Nat.cast_add, Nat.cast_one]
        congr 2
        omega


theorem dec_unsigned_eq (len : Nat) (h0 : 0 < len) (h : len < UINT_RANGE) :
    dec_unsigned len = len - 1 := by
  unfold dec_unsigned
  have : len + UINT_RANGE - 1 = (len - 1) + UINT_RANGE := by omega
  rw [this, Nat.add_mod_right, Nat.mod_eq_of_lt (by omega)]

/-- C1: for every run of fewer than `INT_RANGE` calls of `job_list_add` on a
freshly initialised table, every name being shorter than `NAME_LEN` and every
`malloc` succeeding: the `length` field is the number of calls; for every
`i` below it `job_list_get` returns a job with the pid and status of the
`i`-th call and holding the string of its name; for every other `i` it
returns NULL; and the `jobs` built-in prints one line per call, the `i`-th
with ordinal `i` and the name and status of the `i`-th call. -/
theorem job_list_add_sequence (adds : List (Int × String × Int))
    (hn : adds.length < INT_RANGE)
    (hname : ∀ a ∈ adds, (cstring a.2.1.toList).length < NAME_LEN) :
    (add_all job_list_init adds).length = adds.length ∧
    (∀ i (hi : i < adds.length), ∃ j,
        job_list_get (add_all job_list_init adds) i = some j ∧
        j.pid = adds[i].1 ∧ cstring j.name = cstring adds[i].2.1.toList ∧
        j.status = adds[i].2.2) ∧
    (∀ i, adds.length ≤ i → job_list_get (add_all job_list_init adds) i = none) ∧
    ∃ lines, jobs_builtin (add_all job_list_init adds) = some lines ∧
      lines.length = adds.length ∧
      ∀ i (hi : i < adds.length), lines[i]? =
        some ⟨(i : Int), cstring adds[i].2.1.toList, status_desc adds[i].2.2⟩ := by
  have hlt : job_list_init.head.length + adds.length < UINT_RANGE := by
    simp only [job_list_init, List.length_nil, UINT_RANGE]
    simp only [INT_RANGE] at hn
    omega
  have heq : add_all job_list_init adds = ⟨adds.map added_job, adds.length⟩ := by
    have h := add_all_eq adds job_list_init rfl hlt
    simpa only [job_list_init, List.nil_append, List.length_nil, Nat.zero_add] using h
  have hlen : (add_all job_list_init adds).length
      = (add_all job_list_init adds).head.length := by
    rw [heq]; simp
  refine ⟨by rw [heq], ?_, ?_, ?_⟩
  · intro i hi
    refine ⟨added_job adds[i], ?_, rfl, ?_, rfl⟩
    · rw [job_list_get_eq _ hlen, heq]
      simp [hi]
    · exact cstring_strncpy _ _ (hname _ (List.getElem_mem _))
  · intro i hi
    rw [job_list_get_eq _ hlen, heq]
    simp [hi]
  · have hnul : ∀ j ∈ adds.map added_job, NUL ∈ j.name := by
      intro j hj
      obtain ⟨a, ha, rfl⟩ := List.mem_map.mp hj
      exact NUL_mem_strncpy _ _ (hname a ha)
    obtain ⟨lines, h1, h2, h3⟩ := jobs_loop_eq (adds.map added_job) 0 hnul
    refine ⟨lines, ?_, by simpa using h2, ?_⟩
    · rw [jobs_builtin, heq]; exact h1
    · intro i hi
      have hi2 : i < (adds.map added_job).length := by simpa using hi
      rw [h3 i hi2]
      simp only [List.getElem_map, added_job, zero_add]
      rw [cstring_strncpy _ _ (hname _ (List.getElem_mem _))]

theorem job_list_add_sequence_witness :
    (add_all job_list_init [(100, "ls", 1), (101, "cat", 0)]).length = 2 :=
  (job_list_add_sequence [(100, "ls", 1), (101, "cat", 0)] (by decide) (by decide)).1

theorem unlink_eq_eraseIdx (k : Nat) (l : List job_t) (h : k + 1 < l.length) :
    job_list_remove.unlink k l = some (l.eraseIdx (k + 1)) := by
  induction k generalizing l with
  | zero =>
    match l, h with
    | a :: b :: r, _ => rfl
  | succ n ih =>
    match l, h with
    | a :: r, h =>
      simp only [List.length_cons, Nat.add_lt_add_iff_right] at h
      simp [job_list_remove.unlink, ih r h]

theorem job_list_remove_eq (list : job_list_t) (hwf : list.WF) (i : Nat)
    (hi : i < list.length) :
    job_list_remove list i = some (0, ⟨list.head.eraseIdx i, list.length - 1⟩) := by
  obtain ⟨hd, len⟩ := list
  obtain ⟨h1, h2⟩ := hwf
  simp only at h1 h2 hi
  subst h1
  have hdec : dec_unsigned hd.length = hd.length - 1 :=
    dec_unsigned_eq _ (by omega) (by simp only [INT_RANGE] at h2; simp only [UINT_RANGE]; omega)
  unfold job_list_remove
  simp only [ge_iff_le, Nat.not_le.mpr hi, if_false]
  by_cases h0 : i = 0
  · subst h0
    cases hd with
    | nil => simp at hi
    | cons a t =>
      simp only [List.length_cons] at hdec
      simp [hdec]
  · simp only [h0, if_false]
    obtain ⟨k, rfl⟩ : ∃ k, i = k + 1 := ⟨i - 1, by omega⟩
    rw [Nat.add_sub_cancel, unlink_eq_eraseIdx k hd hi]
    simp [hdec]


/-- C2: for every table that satisfies the representation invariant and every
index `i`: `job_list_remove` returns 0 exactly when `i` is below `length`;
when `i` is below `length`, `job_list_remove` returns 0, `length`
drops by one, the chain is the old one with the node at `i` erased, every
ordinal below `i` holds the job it held, and the job that was at an ordinal
`j` above `i` is at `j - 1`; when `i` is not below `length`, it returns -1
and the table is unchanged. -/
theorem job_list_remove_spec (list : job_list_t) (hwf : list.WF) (i : Nat) :
    ((∃ t, job_list_remove list i = some (0, t)) ↔ i < list.length) ∧
    (i < list.length → ∃ t, job_list_remove list i = some (0, t) ∧
        t.length + 1 = list.length ∧ t.head = list.head.eraseIdx i ∧ t.WF ∧
        (∀ j, j < i → job_list_get t j = job_list_get list j) ∧
        (∀ j, i < j → job_list_get t (j - 1) = job_list_get list j)) ∧
    (list.length ≤ i → job_list_remove list i = some (-1, list)) := by
  refine ⟨⟨?_, fun hi => ⟨_, job_list_remove_eq list hwf i hi⟩⟩, ?_, ?_⟩
  · rintro ⟨t, ht⟩
    by_contra hge
    have hfail : job_list_remove list i = some (-1, list) := by
      simp [job_list_remove, Nat.le_of_not_lt hge]
    rw [hfail] at ht
    simp at ht
  · intro hi
    have hlen : list.length = list.head.length := hwf.1
    have hi2 : i < list.head.length := hlen ▸ hi
    have hlen2 : (list.head.eraseIdx i).length = list.head.length - 1 :=
      List.length_eraseIdx_of_lt hi2
    have hwf2 : job_list_t.WF ⟨list.head.eraseIdx i, list.length - 1⟩ := by
      refine ⟨?_, ?_⟩
      · simp only [hlen2, hlen]
      · have := hwf.2
        simp only [hlen2]
        omega
    refine ⟨⟨list.head.eraseIdx i, list.length - 1⟩, job_list_remove_eq list hwf i hi,
      by simp only; omega, rfl, hwf2, ?_, ?_⟩
    · intro j hj
      rw [job_list_get_eq _ hwf2.1, job_list_get_eq _ hlen]
      exact List.getElem?_eraseIdx_of_lt _ _ _ hj
    · intro j hj
      rw [job_list_get_eq _ hwf2.1, job_list_get_eq _ hlen]
      simp only
      rw [List.getElem?_eraseIdx_of_ge _ _ _ (by omega)]
      congr 1
      omega
  · intro hi
    simp [job_list_remove, hi]

theorem job_list_remove_spec_witness :
    (∃ t, job_list_remove table_ABC 1 = some (0, t)) ↔ 1 < table_ABC.length :=
  (job_list_remove_spec table_ABC ⟨rfl, by decide⟩ 1).1

theorem sweep_eq (s : Int) (l : List job_t) (len : Nat)
    (h1 : l.length ≤ len) (h2 : len < UINT_RANGE) :
    job_list_remove_by_status.sweep s l len
      = (l.filter (fun j => decide (j.status ≠ s)),
         len - l.length + (l.filter (fun j => decide (j.status ≠ s))).length) := by
  induction l generalizing len with
  | nil => simp [job_list_remove_by_status.sweep]
  | cons a t ih =>
    simp only [List.length_cons] at h1
    by_cases ha : a.status = s
    · have hd := dec_unsigned_eq len (by omega) h2
      simp only [job_list_remove_by_status.sweep, ha, if_true, hd]
      rw [ih (len - 1) (by omega) (by omega)]
      simp only [ha, ne_eq, not_true_eq_false, decide_False, List.filter_cons_of_neg,
        Bool.false_eq_true, not_false_eq_true, Prod.mk.injEq, true_and, List.length_cons]
      omega
    · simp only [job_list_remove_by_status.sweep, ha, if_false]
      rw [ih len (by omega) h2]
      simp only [ne_eq, ha, not_false_eq_true, decide_True, List.filter_cons_of_pos,
        List.length_cons, Prod.mk.injEq, true_and]
      omega

theorem job_list_remove_by_status_eq (s : Int) (l : List job_t) (len : Nat)
    (h1 : l.length ≤ len) (h2 : len < UINT_RANGE) :
    job_list_remove_by_status ⟨l, len⟩ s
      = ⟨l.filter (fun j => decide (j.status ≠ s)),
         len - l.length + (l.filter (fun j => decide (j.status ≠ s))).length⟩ := by
  induction l generalizing len with
  | nil => simp [job_list_remove_by_status, job_list_remove_by_status.pop]
  | cons a t ih =>
    simp only [List.length_cons] at h1
    by_cases ha : a.status = s
    · have hd := dec_unsigned_eq len (by omega) h2
      have := ih (len - 1) (by omega) (by omega)
      simp only [job_list_remove_by_status, job_list_remove_by_status.pop, ha, if_true, hd]
        at this ⊢
      rw [this]
      simp only [ha, ne_eq, not_true_eq_false, decide_False, List.filter_cons_of_neg,
        Bool.false_eq_true, not_false_eq_true, List.length_cons]
      rw [job_list_t.mk.injEq]
      exact ⟨rfl, by omega⟩
    · simp only [job_list_remove_by_status, job_list_remove_by_status.pop, ha, if_false]
      rw [sweep_eq s t len (by omega) h2]
      simp only [ne_eq, ha, not_false_eq_true, decide_True, List.filter_cons_of_pos,
        List.length_cons]
      rw [job_list_t.mk.injEq]
      exact ⟨rfl, by omega⟩

/-- C3: for every table that satisfies the representation invariant and every
status `s`, after `job_list_remove_by_status` the chain is the old one
filtered to the jobs whose status is not `s`, no job left has status `s`, and
the `length` field is the number of jobs left. -/
theorem job_list_remove_by_status_spec (list : job_list_t) (hwf : list.WF) (s : Int) :
    (job_list_remove_by_status list s).head
        = list.head.filter (fun j => decide (j.status ≠ s)) ∧
    (∀ j ∈ (job_list_remove_by_status list s).head, j.status ≠ s) ∧
    (job_list_remove_by_status list s).length
        = (list.head.filter (fun j => decide (j.status ≠ s))).length ∧
    (job_list_remove_by_status list s).WF := by
  obtain ⟨hd, len⟩ := list
  obtain ⟨h1, h2⟩ := hwf
  simp only at h1 h2
  subst h1
  have hlt : hd.length < UINT_RANGE := by
    simp only [INT_RANGE] at h2; simp only [UINT_RANGE]; omega
  rw [job_list_remove_by_status_eq s hd hd.length (Nat.le_refl _) hlt]
  refine ⟨rfl, ?_, by simp, ?_⟩
  · intro j hj
    simpa using (List.mem_filter.mp hj).2
  · refine ⟨by simp [job_list_t.WF], ?_⟩
    exact Nat.lt_of_le_of_lt (List.length_filter_le _ _) h2

theorem job_list_remove_by_status_spec_witness :
    (job_list_remove_by_status table_ABC 1).head
      = [job_B] :=
  (job_list_remove_by_status_spec table_ABC
    ⟨rfl, by decide⟩ 1).1


/-- C4: on the table `A: background, B: stopped, C: background`, with every wait
reporting termination, `await_all_background_jobs` makes a single wait, on the
pid of `A`; `C`, whose pid 102 is never waited on, is removed all the same and
the table is left as `B` alone. The loop counter starts at 1 while `temp`
starts at the head, so the last entry of a table is never visited. -/
theorem await_all_never_waits_on_last_entry :
    await_all_background_jobs os_exit ⟨table_ABC, 1, []⟩
      = some (0, ⟨⟨[job_B], 1⟩, 1, [Event.waitpid 100 WaitResult.terminated]⟩) := by
  decide

/-- C5: on the table `A: background, B: stopped, C: background`, with every wait
reporting a stop, `await_all_background_jobs` keeps `A` with status stopped and
`B`, but removes `C`: the last entry is never waited on, keeps status
background and is swept by `job_list_remove_by_status`. -/
theorem await_all_removes_unvisited_last_entry :
    await_all_background_jobs os_stop ⟨table_ABC, 1, []⟩
      = some (0, ⟨⟨[{ job_A with status := JOB_STOPPED }, job_B], 2⟩, 1,
                  [Event.waitpid 100 WaitResult.stopped]⟩) := by
  decide

/-- C6: when the value the ordinal token parses to fits an `int` and converts
to the index `N`, and the entry at `N` has status stopped,
`await_background_job` returns -1 and the whole shell state is as before: the
table is unchanged and no call was added to the trace, so no process was
waited on. -/
theorem await_background_job_rejects_stopped (os : OS) (tokens : strvec_t) (sh : Shell)
    (c : String) (N : Nat) (job : job_t)
    (hc : strvec_get tokens 1 = some c)
    (hlo : -(INT_RANGE : Int) ≤ atoi c) (hhi : atoi c < (INT_RANGE : Int))
    (hN : to_unsigned (atoi c) = N)
    (hget : job_list_get sh.jobs N = some job)
    (hs : job.status = JOB_STOPPED) :
    await_background_job os tokens sh = some (-1, sh) := by
  have _hint : -(INT_RANGE : Int) ≤ atoi c ∧ atoi c < (INT_RANGE : Int) := ⟨hlo, hhi⟩
  subst hN
  have hne : job.status ≠ JOB_BACKGROUND := by
    rw [hs]; decide
  simp only [await_background_job, hc, hget]
  rw [if_pos hne]

theorem await_background_job_rejects_stopped_witness :
    await_background_job os_exit ["wait-for", "1"] ⟨table_ABC, 1, []⟩
      = some (-1, ⟨table_ABC, 1, []⟩) :=
  await_background_job_rejects_stopped os_exit ["wait-for", "1"] ⟨table_ABC, 1, []⟩
    "1" 1 job_B (by decide) (by decide) (by decide) (by decide) (by decide) (by decide)

/-- C7: on the table `A: background, B: stopped, C: background`, `wait-for 0`
with the wait on `A` reporting a stop returns 0 and leaves the table exactly
as it was: the entry at ordinal 0 still has status background, not stopped. -/
theorem await_background_job_keeps_background_status :
    await_background_job os_stop ["wait-for", "0"] ⟨table_ABC, 1, []⟩
        = some (0, ⟨table_ABC, 1, [Event.waitpid 100 WaitResult.stopped]⟩) ∧
      (job_list_get table_ABC 0).map (fun j => j.status) = some JOB_BACKGROUND := by
  decide

/-- C8: with every call succeeding, `run_command` on `cmd > out < in` calls
`execvp` with the arguments `cmd`, `>`, `out`, and on `cmd >> a > b` with the
arguments `cmd`, `>>`, `a`: `endProgram` is the index of `<` whenever `<` is
present, else that of `>` whenever `>` is present, not the index of the
earliest operator. -/
theorem run_command_passes_operator_tokens :
    run_command child_ok ["cmd", ">", "out", "<", "in"]
        = RunResult.execvp ⟨["cmd", ">", "out"], 3, some "in", some ("out", false)⟩ true ∧
      run_command child_ok ["cmd", ">>", "a", ">", "b"]
        = RunResult.execvp ⟨["cmd", ">>", "a"], 3, none, some ("b", false)⟩ true := by
  decide

/-- C9: a foreground launch of `sleep 5` whose fork returns pid 501. When the
`waitpid` fails, and when the child stops and the `malloc` of `job_list_add`
fails, the shell (pid 1) is back at the prompt with the terminal still owned by
process group 501: both paths leave the iteration before the
`tcsetpgrp(STDIN_FILENO, getpid())` of line 248. -/
theorem launch_error_paths_leave_terminal_with_child :
    launch os_wait_fail ⟨0, true, 501, true⟩ child_ok "sleep" ["sleep", "5"]
        ⟨job_list_init, 1, []⟩
      = some (Control.prompt, ⟨job_list_init, 501,
          [Event.fork ["sleep", "5"] 501, Event.tcsetpgrp 501 true,
           Event.waitpid 501 WaitResult.failed]⟩) ∧
    launch os_stop ⟨0, true, 501, false⟩ child_ok "sleep" ["sleep", "5"]
        ⟨job_list_init, 1, []⟩
      = some (Control.prompt, ⟨job_list_init, 501,
          [Event.fork ["sleep", "5"] 501, Event.tcsetpgrp 501 true,
           Event.waitpid 501 WaitResult.stopped]⟩) := by
  decide

/-- C10: the command line `sleep 5 &`, the two forks returning pids 500 and
501 and every call succeeding. The shell forks twice for `sleep 5`, adds one
job with pid 500 and status background, then hands the terminal to 501, waits
on 501 and takes the terminal back: the background block of lines 169-190 is
followed by the foreground code of line 197 on. -/
theorem launch_background_also_runs_foreground :
    launch os_exit ⟨500, true, 501, true⟩ child_ok "sleep" ["sleep", "5", "&"]
        ⟨job_list_init, 1, []⟩
      = some (Control.prompt,
          ⟨⟨[⟨strncpy "sleep".toList NAME_LEN, JOB_BACKGROUND, 500⟩], 1⟩, 1,
           [Event.fork ["sleep", "5"] 500, Event.fork ["sleep", "5"] 501,
            Event.tcsetpgrp 501 true, Event.waitpid 501 WaitResult.terminated,
            Event.tcsetpgrp 1 true]⟩) := by
  decide


theorem job_list_get_lt (list : job_list_t) (idx : Nat) (job : job_t)
    (h : job_list_get list idx = some job) : idx < list.length := by
  unfold job_list_get at h
  by_contra hge
  rw [if_pos (Nat.le_of_not_lt hge)] at h
  exact Option.noConfusion h

theorem to_unsigned_out_of_range (v : Int) (len : Nat)
    (hlo : -(INT_RANGE : Int) ≤ v) (hhi : v < (INT_RANGE : Int)) (hlen : len < INT_RANGE)
    (hbad : v < 0 ∨ (len : Int) ≤ v) : len ≤ to_unsigned v := by
  unfold to_unsigned
  simp only [INT_RANGE, UINT_RANGE] at *
  push_cast at *
  omega

/-- C11: when the value the ordinal token parses to fits an `int` and converts
to the index `N`, the table satisfies the representation invariant and holds
a job at `N`, and every call succeeds with
the wait reporting that the job terminated, `resume_job` with
`is_foreground = 1` returns 0, the table afterwards is the old one with the
node at `N` erased and `length` one less, and the terminal belongs to the
process group of the shell. -/
theorem resume_job_foreground_exit (os : OS) (tokens : strvec_t) (sh : Shell)
    (c : String) (N : Nat) (job : job_t)
    (hc : strvec_get tokens 1 = some c)
    (hlo : -(INT_RANGE : Int) ≤ atoi c) (hhi : atoi c < (INT_RANGE : Int))
    (hN : to_unsigned (atoi c) = N)
    (hwf : sh.jobs.WF)
    (hget : job_list_get sh.jobs N = some job)
    (htc : os.tcsetpgrp job.pid = true)
    (hk : os.kill job.pid = true)
    (hw : os.waitpid job.pid = WaitResult.terminated)
    (hback : os.tcsetpgrp os.getpid = true) :
    ∃ sh1, resume_job os tokens sh 1 = some (0, sh1) ∧
      sh1.jobs.head = sh.jobs.head.eraseIdx N ∧
      sh1.jobs.length + 1 = sh.jobs.length ∧
      sh1.tty = os.getpid := by
  have _hint : -(INT_RANGE : Int) ≤ atoi c ∧ atoi c < (INT_RANGE : Int) := ⟨hlo, hhi⟩
  subst hN
  have hlt := job_list_get_lt _ _ _ hget
  have hrm := job_list_remove_eq sh.jobs hwf _ hlt
  have hrun : resume_job os tokens sh 1
      = some (0, ⟨⟨sh.jobs.head.eraseIdx (to_unsigned (atoi c)), sh.jobs.length - 1⟩,
          os.getpid,
          sh.trace ++ [Event.tcsetpgrp job.pid true] ++ [Event.kill_cont job.pid true]
            ++ [Event.waitpid job.pid WaitResult.terminated]
            ++ [Event.tcsetpgrp os.getpid true]⟩) := by
    simp only [resume_job, if_true, hc, hget, Shell.tcsetpgrp, Shell.kill, Shell.waitpid,
      htc, hk, hw, hrm, hback, Bool.not_true, Bool.false_eq_true, if_false, ne_eq,
      not_true_eq_false]
  refine ⟨_, hrun, rfl, ?_, rfl⟩
  simp only
  omega

theorem resume_job_foreground_exit_witness :
    ∃ sh1, resume_job os_exit ["fg", "1"] ⟨table_ABC, 1, []⟩ 1 = some (0, sh1) ∧
      sh1.jobs.head = table_ABC.head.eraseIdx 1 ∧
      sh1.jobs.length + 1 = table_ABC.length ∧
      sh1.tty = os_exit.getpid :=
  resume_job_foreground_exit os_exit ["fg", "1"] ⟨table_ABC, 1, []⟩ "1" 1 job_B
    (by decide) (by decide) (by decide) (by decide) ⟨rfl, by decide⟩ (by decide)
    rfl rfl rfl rfl

/-- C12: on the table `A, B: stopped, C` with the terminal owned by process
group 101, `bg 1` with every call succeeding sends the continue signal to pid
101, sets the status of `B` to background and makes no wait, but then calls
`tcsetpgrp(STDIN_FILENO, getpid())`: the terminal is owned by the shell
(pid 1) afterwards, not by 101 as before the call. -/
theorem resume_job_background_takes_terminal :
    resume_job os_exit ["bg", "1"] ⟨table_ABC, 101, []⟩ 0
      = some (0, ⟨⟨[job_A, { job_B with status := JOB_BACKGROUND }, job_C], 3⟩, 1,
                  [Event.kill_cont 101 true, Event.tcsetpgrp 1 true]⟩) := by
  decide

/-- C13: when the value the ordinal token parses to is an `int` that is
negative or not below the `length` of the table, and `length` is below
`INT_RANGE`, each of `resume_job` with `is_foreground = 1`, `resume_job` with
`is_foreground = 0` and `await_background_job` returns -1 and leaves the whole
shell state as it was: the table and the terminal are unchanged and no call
was added to the trace, so no signal was sent and no wait made. -/
theorem out_of_range_ordinal_rejected (os : OS) (tokens : strvec_t) (sh : Shell)
    (c : String)
    (hc : strvec_get tokens 1 = some c)
    (hlo : -(INT_RANGE : Int) ≤ atoi c) (hhi : atoi c < (INT_RANGE : Int))
    (hlen : sh.jobs.length < INT_RANGE)
    (hbad : atoi c < 0 ∨ (sh.jobs.length : Int) ≤ atoi c) :
    resume_job os tokens sh 1 = some (-1, sh) ∧
    resume_job os tokens sh 0 = some (-1, sh) ∧
    await_background_job os tokens sh = some (-1, sh) := by
  have hge := to_unsigned_out_of_range (atoi c) sh.jobs.length hlo hhi hlen hbad
  have hnone : job_list_get sh.jobs (to_unsigned (atoi c)) = none := by
    unfold job_list_get
    rw [if_pos hge]
  refine ⟨?_, ?_, ?_⟩
  · simp only [resume_job, if_true, hc, hnone]
  · simp only [resume_job, hc, hnone]
    rfl
  · simp only [await_background_job, hc, hnone]

theorem out_of_range_ordinal_rejected_witness :
    resume_job os_exit ["fg", "-1"] ⟨table_ABC, 1, []⟩ 1 = some (-1, ⟨table_ABC, 1, []⟩) ∧
    resume_job os_exit ["fg", "-1"] ⟨table_ABC, 1, []⟩ 0 = some (-1, ⟨table_ABC, 1, []⟩) ∧
    await_background_job os_exit ["fg", "-1"] ⟨table_ABC, 1, []⟩
      = some (-1, ⟨table_ABC, 1, []⟩) :=
  out_of_range_ordinal_rejected os_exit ["fg", "-1"] ⟨table_ABC, 1, []⟩ "-1"
    (by decide) (by decide) (by decide) (by decide) (by decide)

/-- C14: with every call succeeding, `run_command` on twelve tokens and no
redirection copies eleven of them into `strarr`, indices 0 to 10, and writes
the NULL sentinel at index 11, one past the `MAX_ARGS + 1` slots of the array:
the copy loop runs while `i < MAX_ARGS + 1`, not while `i < MAX_ARGS`. -/
theorem run_command_sentinel_past_array :
    run_command child_ok
        ["a0", "a1", "a2", "a3", "a4", "a5", "a6", "a7", "a8", "a9", "a10", "a11"]
      = RunResult.execvp
          ⟨["a0", "a1", "a2", "a3", "a4", "a5", "a6", "a7", "a8", "a9", "a10"], 11,
           none, none⟩ true ∧
    ¬ (11 < MAX_ARGS + 1) := by
  decide

/-- C15: on the table `A, B, C`, the line `cd /nonexistent` with `chdir`
failing, and the line `sleep 5` with `fork` returning -1, both bring the shell
back to the prompt with an empty job table: the error paths of `pwd`, `cd`
and `fork` in `main` call `job_list_free`. -/
theorem main_step_error_paths_free_table :
    main_step os_exit builtin_chdir_fails ⟨0, true, 501, true⟩ child_ok
        "cd /nonexistent" [] ⟨table_ABC, 1, []⟩
      = some (LoopControl.next_prompt, ⟨⟨[], 0⟩, 1, []⟩) ∧
    main_step os_exit builtin_chdir_fails ⟨0, true, -1, true⟩ child_ok
        "sleep 5" [] ⟨table_ABC, 1, []⟩
      = some (LoopControl.next_prompt, ⟨⟨[], 0⟩, 1, [Event.fork ["sleep", "5"] (-1)]⟩) := by
  decide

/-- C16: on the empty line and on a line of three spaces `tokenize` returns -1
and the iteration ends with `main` returning 1, the job table freed: the
shell process terminates. -/
theorem main_step_blank_line_ends_shell :
    tokenize "" [] = (-1, []) ∧ tokenize "   " [] = (-1, []) ∧
    main_step os_exit builtin_chdir_fails ⟨0, true, 501, true⟩ child_ok
        "" [] ⟨table_ABC, 1, []⟩
      = some (LoopControl.returned 1, ⟨⟨[], 0⟩, 1, []⟩) ∧
    main_step os_exit builtin_chdir_fails ⟨0, true, 501, true⟩ child_ok
        "   " [] ⟨table_ABC, 1, []⟩
      = some (LoopControl.returned 1, ⟨⟨[], 0⟩, 1, []⟩) := by
  decide

/-- C17: `job_list_add` of a name of 32 characters stores a `name` field that
is those 32 characters and holds no NUL, and the `jobs` built-in then reads
past the field. -/
theorem job_list_add_long_name_unterminated :
    (job_list_add job_list_init 7 long_name JOB_BACKGROUND true).2.head.map (fun j => j.name)
      = [long_name.toList] ∧
    long_name.length = NAME_LEN ∧
    NUL ∉ long_name.toList ∧
    jobs_builtin (job_list_add job_list_init 7 long_name JOB_BACKGROUND true).2 = none := by
  decide

/-- C18: for every system and every shell state, `fg`, `bg` and `wait-for`
typed with no ordinal hand the NULL that `strvec_get(tokens, 1)` returns to
`atoi`: a NULL dereference instead of an error return. -/
theorem missing_ordinal_reaches_atoi (os : OS) (sh : Shell) :
    strvec_get ["fg"] 1 = none ∧
    resume_job os ["fg"] sh 1 = none ∧
    resume_job os ["bg"] sh 0 = none ∧
    await_background_job os ["wait-for"] sh = none := by
  refine ⟨rfl, rfl, rfl, rfl⟩

end Swish
